import Mathlib

/-!
Verification of the routing/dispatch core of the agentic graph repository
(src/agentic): the dialog-stack reducer, the coordinator router, the
model-invocation retry loop, the tool-execution fallback, and the
transition handlers. Each Python function is embedded as an executable
Lean definition; machine-level effects (raised exceptions) are made
explicit with Except.
-/

namespace Agentic

/-- One structured tool invocation request emitted in a model message:
the langchain tool-call record with fields id, name and args. -/
structure ToolCall where
  id : String
  name : String
  args : String
deriving DecidableEq

/-- Content of a chat message: either a plain string, or a list of
structured blocks where each block carries an optional text field
(the two shapes the retry check in Assistant inspects). -/
inductive MsgContent where
  | text : String → MsgContent
  | blocks : List (Option String) → MsgContent
deriving DecidableEq

/-- One conversational message: role, content and tool calls. -/
structure Msg where
  role : String
  content : MsgContent
  tool_calls : List ToolCall
deriving DecidableEq

/-- A ToolMessage: a reply correlated to a ToolCall through tool_call_id. -/
structure ToolMsg where
  content : String
  tool_call_id : String
deriving DecidableEq

/-- GraphState from src/agentic/states.py: the message log (merged by
add_messages, which appends) and the dialog stack (merged by
update_dialog_stack). -/
structure GraphState where
  messages : List Msg
  dialog_state : List String
deriving DecidableEq

/-- Python exceptions the embedded functions can raise. -/
inductive PyErr where
  | indexError : PyErr
  | valueError : String → PyErr
deriving DecidableEq

/-- Terminal marker END of langgraph. -/
def END : String := "__end__"

/-- update_dialog_stack from src/agentic/utils.py: the three-way reducer of
the dialog stack. Absent value is a no-op, the reserved string pop removes
the last element, any other value is appended. -/
def update_dialog_stack (left : List String) (right : Option String) : List String :=
  match right with
  | none => left
  | some r => if r = "pop" then left.dropLast else left ++ [r]

/-- Update dict returned by a transition-handler node: the reducer argument
for dialog_state plus the tool messages to append. -/
structure NodeUpdate where
  dialog_state : Option String
  messages : List ToolMsg
deriving DecidableEq

/-- Content of the hand-back ToolMessage produced by pop_dialog_state. -/
def resumeContent : String :=
  "Resuming dialog with the primary assistant. Please reflect on the past conversation and assist the user as needed."

/-- pop_dialog_state from src/agentic/utils.py: the leave_skill node. Reads
the last message of the log (IndexError when the log is empty), emits the
pop sentinel for the dialog-stack reducer, and appends one hand-back
ToolMessage correlated to the first tool call of that message when it has
tool calls, no message otherwise. -/
def pop_dialog_state (state : GraphState) : Except PyErr NodeUpdate :=
  match state.messages.getLast? with
  | none => .error .indexError
  | some m =>
    let messages : List ToolMsg :=
      match m.tool_calls with
      | [] => []
      | tc :: _ => [{ content := resumeContent, tool_call_id := tc.id }]
    .ok { dialog_state := some "pop", messages := messages }

/-- handle_tool_error from src/agentic/utils.py: reads the error put into
the state by the fallback wiring and the tool calls of the last message,
and produces one error ToolMessage per tool call, in order, correlated by
tool call id. The repr of the raised exception is modelled as the error
string itself. -/
def handle_tool_error (error : String) (state : GraphState) : Except PyErr (List ToolMsg) :=
  match state.messages.getLast? with
  | none => .error .indexError
  | some m =>
    .ok (m.tool_calls.map fun tc =>
      { content := "Error: " ++ error ++ "\n please fix your mistakes.",
        tool_call_id := tc.id })

/-- Execution of the tool calls of one message against a tool registry
(name and args to either a result or a raised error), stopping at the
first raised exception: the behavior of the prebuilt ToolNode that
create_tool_node_with_fallback wraps. -/
def runToolCalls (runTool : String → String → Except String String) :
    List ToolCall → Except String (List ToolMsg)
  | [] => .ok []
  | tc :: rest =>
    match runTool tc.name tc.args with
    | .error e => .error e
    | .ok r =>
      match runToolCalls runTool rest with
      | .error e => .error e
      | .ok rs => .ok ({ content := r, tool_call_id := tc.id } :: rs)

/-- create_tool_node_with_fallback from src/agentic/utils.py: runs the tool
calls of the last message; when a tool raises, the with_fallbacks wiring
invokes handle_tool_error with the error placed in the state instead of
propagating the exception. -/
def tool_node_with_fallback (runTool : String → String → Except String String)
    (state : GraphState) : Except PyErr (List ToolMsg) :=
  match state.messages.getLast? with
  | none => .error .indexError
  | some m =>
    match runToolCalls runTool m.tool_calls with
    | .ok rs => .ok rs
    | .error e => handle_tool_error e state

/-- Names of the three handoff tools bound to the primary assistant:
the class names from src/agentic/tools.py that PrimaryAssistant binds. -/
def handoffToolNames : List String :=
  ["ToArchitectAssistant", "ToCoderAssistant", "ToTesterAssistant"]

/-- Name of the escalate tool from src/agentic/tools.py, recognized only by
the secondary-assistant router. -/
def escalateToolName : String := "CompleteOrEscalate"

/-- Registered basic tools of the primary assistant: PrimaryAssistant sets
self.basic_tools to the empty list. -/
def primaryBasicToolNames : List String := []

/-- tools_condition from langgraph.prebuilt, the external callee of
route_assistant: returns the string tools when the last message has tool
calls, END otherwise; raises ValueError when the state has no messages. -/
def tools_condition (state : GraphState) : Except PyErr String :=
  match state.messages.getLast? with
  | none => .error (.valueError "No messages found in input state to tool_edge")
  | some m => .ok (if m.tool_calls.isEmpty then END else "tools")

/-- PrimaryAssistant.route_assistant from src/agentic/assistants.py, with
self.name equal to primary_assistant. Delegates to tools_condition, then
dispatches on the name of the first tool call of the last message; the
final raise ValueError of the source is the valueError branch. -/
def route_assistant (state : GraphState) : Except PyErr String :=
  match tools_condition state with
  | .error e => .error e
  | .ok route =>
    if route = END then .ok END
    else
      match state.messages.getLast? with
      | none => .error .indexError
      | some m =>
        match m.tool_calls with
        | [] => .error (.valueError "Invalid route")
        | tc :: _ =>
          if tc.name = "ToArchitectAssistant" then .ok "enter_architect_assistant"
          else if tc.name = "ToCoderAssistant" then .ok "enter_coder_assistant"
          else if tc.name = "ToTesterAssistant" then .ok "enter_tester_assistant"
          else .ok ("primary_assistant" ++ "_tools")

/-- Names of the secondary assistants instantiated in define_workflow
(src/agentic/graph.py). -/
def secondaryAssistantNames : List String :=
  ["architect_assistant", "coder_assistant", "tester_assistant"]

/-- Node names added to the builder by define_workflow, in source order:
for each secondary assistant its entry node, its agent node and its tools
node, then the primary assistant, its tools node and leave_skill. -/
def graphNodeNames : List String :=
  (secondaryAssistantNames.flatMap fun n => ["enter_" ++ n, n, n ++ "_tools"]) ++
    ["primary_assistant", "primary_assistant_tools", "leave_skill"]

/-- Declared conditional-edge targets of the primary_assistant node,
exactly the list passed to add_conditional_edges in define_workflow
(src/agentic/graph.py). -/
def primaryConditionalEdgeTargets : List String :=
  ["enter_device_assistant", "enter_telco_contract_assistant", "primary_assistant_tools", END]

/-- Check deciding whether Assistant reinvokes the model: true when the
result has no tool calls and its content is empty, where empty means an
empty plain string, an empty block list, or a block list whose first block
has no text. Direct transcription of the condition in Assistant of
src/agentic/assistants.py. -/
def retryNeeded (result : Msg) : Bool :=
  result.tool_calls.isEmpty &&
    (match result.content with
     | .text s => s.isEmpty
     | .blocks [] => true
     | .blocks (b :: _) => (b.getD "").isEmpty)

/-- Synthetic user directive the retry loop appends to its working copy of
the message list. -/
def retryDirective : Msg :=
  { role := "user", content := .text "Respond with a real output.", tool_calls := [] }

/-- Retry loop of Assistant from src/agentic/assistants.py, with explicit
fuel bounding the number of model invocations. Returns the accepted
message together with the number of invocations performed; none models the
loop still running when the fuel is exhausted. -/
def assistantCall (model : List Msg → Msg) : Nat → List Msg → Option (Msg × Nat)
  | 0, _ => none
  | fuel + 1, msgs =>
    if retryNeeded (model msgs) then
      match assistantCall model fuel (msgs ++ [retryDirective]) with
      | none => none
      | some (m, n) => some (m, n + 1)
    else
      some (model msgs, 1)

/-- State delta returned by Assistant: the dict holding the single accepted
message, which the add_messages merge rule appends to the persisted log. -/
def assistantCallDelta (model : List Msg → Msg) (fuel : Nat) (msgs : List Msg) :
    Option (List Msg) :=
  (assistantCall model fuel msgs).map fun p => [p.1]

/-- A message counts as real output when it carries at least one tool call
or a non-empty text (for block content: a first block with text). -/
def hasRealOutput (m : Msg) : Bool :=
  !m.tool_calls.isEmpty ||
    (match m.content with
     | .text s => !s.isEmpty
     | .blocks [] => false
     | .blocks (b :: _) => !(b.getD "").isEmpty)

/-- Initial user message for the scripted retry scenario. -/
def initialUserMsg : Msg :=
  { role := "user", content := .text "build me a REST API", tool_calls := [] }

/-- Empty model answer: no tool calls and empty text content. -/
def scriptedEmptyMsg : Msg :=
  { role := "assistant", content := .text "", tool_calls := [] }

/-- Valid model answer with real text content. -/
def scriptedValidMsg : Msg :=
  { role := "assistant", content := .text "Here is a plan.", tool_calls := [] }

/-- Scripted model for the retry scenario: empty content on its first two
invocations (which see working copies of length one and two) and valid
content on the third. -/
def scriptedModel (msgs : List Msg) : Msg :=
  if msgs.length < 3 then scriptedEmptyMsg else scriptedValidMsg

/-- Model that returns an empty message on every invocation. -/
def alwaysEmptyModel : List Msg → Msg := fun _ => scriptedEmptyMsg

/-- Abstract stack operation fed through the dialog-stack reducer. -/
inductive StackOp where
  | push : String → StackOp
  | pop : StackOp
deriving DecidableEq

/-- Reducer argument encoding an operation: a push passes the value itself
and a pop passes the reserved sentinel string. -/
def opToArg : StackOp → Option String
  | .push v => some v
  | .pop => some "pop"

/-- A sequence of operations applied through update_dialog_stack, left to
right. -/
def applyOps (s : List String) (ops : List StackOp) : List String :=
  ops.foldl (fun acc op => update_dialog_stack acc (opToArg op)) s

/-- Number of push operations in a sequence. -/
def numPushes : List StackOp → Nat
  | [] => 0
  | .push _ :: rest => numPushes rest + 1
  | .pop :: rest => numPushes rest

/-- Number of pop operations in a sequence. -/
def numPops : List StackOp → Nat
  | [] => 0
  | .push _ :: rest => numPops rest
  | .pop :: rest => numPops rest + 1

/-- Check that no push uses the reserved sentinel string as its value. -/
def sentinelFree : List StackOp → Bool
  | [] => true
  | .push v :: rest => (v != "pop") && sentinelFree rest
  | .pop :: rest => sentinelFree rest

/-- Check that no pop is applied while the running stack is empty, tracking
only the running length. -/
def noUnderflowAux : Nat → List StackOp → Bool
  | _, [] => true
  | n, .push _ :: rest => noUnderflowAux (n + 1) rest
  | n, .pop :: rest => (n != 0) && noUnderflowAux (n - 1) rest

/-- No pop of the sequence is applied to an empty intermediate stack when
starting from stack s. -/
def noUnderflow (s : List String) (ops : List StackOp) : Bool :=
  noUnderflowAux s.length ops

/-- Pushed-and-not-yet-popped values after a sequence of operations,
innermost last. A pop removes the most recent pending push, and touches
only the base stack when no push is pending. The accumulator holds the
pending pushes so far. -/
def pendingAfter : List StackOp → List String → List String
  | [], pend => pend
  | .push v :: rest, pend => pendingAfter rest (pend ++ [v])
  | .pop :: rest, pend => pendingAfter rest pend.dropLast

/-- Remaining part of the base stack after a sequence of operations: a pop
shortens the base only when no pending push is available. -/
def baseAfter : List String → List String → List StackOp → List String
  | base, _, [] => base
  | base, pend, .push v :: rest => baseAfter base (pend ++ [v]) rest
  | base, pend, .pop :: rest =>
    if pend.isEmpty then baseAfter base.dropLast [] rest
    else baseAfter base pend.dropLast rest

/-- Coordinator router exactly as the specification words it: a total
function of the last message, returning END without tool calls, the
matching entry node for a handoff first tool call, and the generic
tool-execution node otherwise. -/
def coordinatorRouterSpec (m : Msg) : String :=
  match m.tool_calls with
  | [] => END
  | tc :: _ =>
    if tc.name = "ToArchitectAssistant" then "enter_architect_assistant"
    else if tc.name = "ToCoderAssistant" then "enter_coder_assistant"
    else if tc.name = "ToTesterAssistant" then "enter_tester_assistant"
    else "primary_assistant_tools"

/-- Concrete message whose first tool call is the architect handoff. -/
def archHandoffMsg : Msg :=
  { role := "assistant", content := .text "",
    tool_calls := [{ id := "call_0", name := "ToArchitectAssistant", args := "" }] }

/-- Concrete state ending in the architect handoff message. -/
def archHandoffState : GraphState :=
  { messages := [archHandoffMsg], dialog_state := [] }

/-- Concrete message whose only tool call names a tool that is neither a
handoff, nor the escalate tool, nor a registered basic tool. -/
def unknownToolMsg : Msg :=
  { role := "assistant", content := .text "",
    tool_calls := [{ id := "call_1", name := "make_coffee", args := "" }] }

/-- Concrete state ending in the unknown tool call message. -/
def unknownToolState : GraphState :=
  { messages := [unknownToolMsg], dialog_state := [] }

/-- Concrete message carrying one escalate tool call. -/
def tooledMsg : Msg :=
  { role := "assistant", content := .text "",
    tool_calls := [{ id := "call_9", name := "CompleteOrEscalate", args := "" }] }

/-- Concrete state ending in the escalate message, inside the coder agent. -/
def tooledState : GraphState :=
  { messages := [tooledMsg], dialog_state := ["coder_assistant"] }

/-- Concrete message without tool calls. -/
def noToolMsg : Msg :=
  { role := "assistant", content := .text "done", tool_calls := [] }

/-- Concrete state ending in the message without tool calls. -/
def noToolState : GraphState :=
  { messages := [noToolMsg], dialog_state := [] }

/-- Concrete registry where the second named tool raises. -/
def failingRegistry : String → String → Except String String := fun name _ =>
  if name = "tool_two" then .error "boom" else .ok "ok"

/-- Concrete message with two tool calls. -/
def twoCallMsg : Msg :=
  { role := "assistant", content := .text "",
    tool_calls := [{ id := "c1", name := "tool_one", args := "" },
                   { id := "c2", name := "tool_two", args := "" }] }

/-- Concrete state ending in the two-call message. -/
def twoCallState : GraphState := { messages := [twoCallMsg], dialog_state := [] }

/-- Concrete operation sequence whose single pop underflows the empty
starting stack before the single push happens. -/
def underflowOps : List StackOp := [.pop, .push "architect_assistant"]

/-- Concrete operation sequence for the amended C6. -/
def demoOps : List StackOp :=
  [.push "architect_assistant", .push "coder_assistant", .pop, .push "tester_assistant"]

/-- Concrete starting stack for the amended C6. -/
def demoStart : List String := ["primary_context"]

/-- C1: the coordinator router does return enter_architect_assistant, yet
the conditional-edge declaration of the primary_assistant node lists
neither this name nor any other enter node of this graph; the declared
name enter_device_assistant is not even a node of the graph. The claimed
correspondence between router return values and declared edge targets
fails in the source. -/
theorem primary_conditional_targets_bug :
    route_assistant archHandoffState = .ok "enter_architect_assistant" ∧
    "enter_architect_assistant" ∉ primaryConditionalEdgeTargets ∧
    "enter_device_assistant" ∉ graphNodeNames ∧
    "primary_assistant_tools" ∈ graphNodeNames :=
  ⟨rfl, by decide, by decide, by decide⟩

/-- C2: for every state with a last message, the coordinator router never
raises and returns exactly the total function of that message described by
the specification: END without tool calls, the matching entry node for a
handoff first tool call, the generic tool node otherwise. -/
theorem coordinator_router_total (state : GraphState) (m : Msg)
    (h : state.messages.getLast? = some m) :
    route_assistant state = .ok (coordinatorRouterSpec m) := by
  unfold route_assistant tools_condition coordinatorRouterSpec
  rw [h]
  cases hm : m.tool_calls with
  | nil => simp [hm]
  | cons tc rest =>
    simp [hm, END]
    by_cases h1 : tc.name = "ToArchitectAssistant" <;>
      by_cases h2 : tc.name = "ToCoderAssistant" <;>
        by_cases h3 : tc.name = "ToTesterAssistant" <;>
          simp [h1, h2, h3]

/-- Witness for C2 at the concrete architect-handoff state. -/
theorem coordinator_router_total_witness :
    route_assistant archHandoffState = .ok (coordinatorRouterSpec archHandoffMsg) :=
  coordinator_router_total archHandoffState archHandoffMsg rfl

/-- C3 counterexample: a state whose last message has one tool call that
matches no known case (not a handoff, not the escalate tool, not a
registered basic tool of the coordinator, whose basic tool list is empty)
is routed to the generic tool node primary_assistant_tools, not to an
error: the router silently falls through to the default target. -/
theorem unknown_tool_silent_fallthrough :
    ("make_coffee" ∉ handoffToolNames ∧ "make_coffee" ≠ escalateToolName ∧
      "make_coffee" ∉ primaryBasicToolNames) ∧
    route_assistant unknownToolState = .ok "primary_assistant_tools" :=
  ⟨by decide, rfl⟩

/-- C3 amended: whenever the last message has tool calls and its first
tool call is not one of the three handoff identifiers, the coordinator
router returns the generic tool-execution node name and never surfaces an
error; the raise ValueError branch of the source is unreachable for any
state with a last message. -/
theorem unknown_tool_routes_generic (state : GraphState) (m : Msg)
    (tc : ToolCall) (rest : List ToolCall)
    (h : state.messages.getLast? = some m) (htc : m.tool_calls = tc :: rest)
    (hname : tc.name ∉ handoffToolNames) :
    route_assistant state = .ok "primary_assistant_tools" := by
  simp only [handoffToolNames, List.mem_cons, List.mem_singleton, not_or] at hname
  obtain ⟨h1, h2, h3⟩ := hname
  unfold route_assistant tools_condition
  rw [h]
  simp [htc, h1, h2, h3, END]

/-- Witness for the amended C3 at the concrete unknown tool call state. -/
theorem unknown_tool_routes_generic_witness :
    route_assistant unknownToolState = .ok "primary_assistant_tools" :=
  unknown_tool_routes_generic unknownToolState unknownToolMsg
    { id := "call_1", name := "make_coffee", args := "" } [] rfl rfl (by decide)

/-- C7 counterexample: the reducer conflates the value pop with the pop
sentinel, so pushing the value pop and then popping does not return the
stack to its pre-push state. -/
theorem push_pop_sentinel_cex :
    update_dialog_stack (update_dialog_stack ["architect_assistant"] (some "pop"))
        (some "pop") = [] ∧
    update_dialog_stack (update_dialog_stack ["architect_assistant"] (some "pop"))
        (some "pop") ≠ ["architect_assistant"] := by
  decide

/-- C7 amended: for every stack s and every value x other than the
reserved sentinel string pop, applying the reducer with x and then with
pop returns exactly s. -/
theorem push_pop_roundtrip (s : List String) (x : String) (hx : x ≠ "pop") :
    update_dialog_stack (update_dialog_stack s (some x)) (some "pop") = s := by
  simp [update_dialog_stack, hx]

/-- Witness for the amended C7 at a concrete stack and value. -/
theorem push_pop_roundtrip_witness :
    update_dialog_stack
        (update_dialog_stack ["primary_context"] (some "coder_assistant"))
        (some "pop") = ["primary_context"] :=
  push_pop_roundtrip ["primary_context"] "coder_assistant" (by decide)

/-- C8: the exit handler emits the pop sentinel, whose merge through the
reducer is tail removal on every stack, and appends exactly one hand-back
ToolMessage correlated to the first tool call of the triggering message
when that message has tool calls, no message otherwise. -/
theorem pop_dialog_state_behavior (state : GraphState) (m : Msg)
    (h : state.messages.getLast? = some m) :
    ∃ u, pop_dialog_state state = .ok u ∧
      u.dialog_state = some "pop" ∧
      (∀ s : List String, update_dialog_stack s u.dialog_state = s.dropLast) ∧
      (∀ tc rest, m.tool_calls = tc :: rest →
        u.messages = [{ content := resumeContent, tool_call_id := tc.id }]) ∧
      (m.tool_calls = [] → u.messages = []) := by
  unfold pop_dialog_state
  rw [h]
  refine ⟨_, rfl, rfl, fun s => rfl, ?_, ?_⟩
  · intro tc rest htc
    simp [htc]
  · intro htc
    simp [htc]

/-- Witness for C8 at the concrete escalate state. -/
theorem pop_dialog_state_behavior_witness :
    ∃ u, pop_dialog_state tooledState = .ok u ∧
      u.dialog_state = some "pop" ∧
      (∀ s : List String, update_dialog_stack s u.dialog_state = s.dropLast) ∧
      (∀ tc rest, tooledMsg.tool_calls = tc :: rest →
        u.messages = [{ content := resumeContent, tool_call_id := tc.id }]) ∧
      (tooledMsg.tool_calls = [] → u.messages = []) :=
  pop_dialog_state_behavior tooledState tooledMsg rfl

/-- C10: the reducer is total, pop on the empty stack returns the empty
stack, and therefore a leave_skill update applied to an empty dialog
stack leaves it empty. -/
theorem reducer_pop_on_empty :
    update_dialog_stack [] (some "pop") = [] ∧
    (∀ (state : GraphState) (u : NodeUpdate), pop_dialog_state state = .ok u →
      update_dialog_stack [] u.dialog_state = []) := by
  refine ⟨rfl, ?_⟩
  intro state u hu
  have hds : u.dialog_state = some "pop" := by
    unfold pop_dialog_state at hu
    cases hgl : state.messages.getLast? with
    | none => rw [hgl] at hu; exact Except.noConfusion hu
    | some m => rw [hgl] at hu; cases hu; rfl
  rw [hds]
  rfl

/-- Witness for C10 at a concrete state whose last message has no tool
calls. -/
theorem reducer_pop_on_empty_witness :
    update_dialog_stack [] (NodeUpdate.mk (some "pop") []).dialog_state = [] :=
  reducer_pop_on_empty.2 noToolState ⟨some "pop", []⟩ rfl

/-- Real output is exactly the negation of the retry condition. -/
theorem hasRealOutput_eq (m : Msg) : hasRealOutput m = !(retryNeeded m) := by
  cases m with
  | mk role content tool_calls =>
    cases content with
    | text s => simp [retryNeeded, hasRealOutput, Bool.not_and]
    | blocks bs =>
      cases bs with
      | nil => simp [retryNeeded, hasRealOutput]
      | cons b rest => simp [retryNeeded, hasRealOutput, Bool.not_and]

/-- Soundness of the retry loop: an accepted result took at least one
invocation, passes the acceptance check, and is exactly the model output
on the working copy extended with one synthetic directive per retry. -/
theorem assistantCall_sound (model : List Msg → Msg) (fuel : Nat) :
    ∀ (msgs : List Msg) (m : Msg) (n : Nat),
      assistantCall model fuel msgs = some (m, n) →
      1 ≤ n ∧ hasRealOutput m = true ∧
      m = model (msgs ++ List.replicate (n - 1) retryDirective) := by
  induction fuel with
  | zero => intro msgs m n h; exact Option.noConfusion h
  | succ fuel ih =>
    intro msgs m n h
    unfold assistantCall at h
    by_cases hr : retryNeeded (model msgs) = true
    · rw [if_pos hr] at h
      cases hrec : assistantCall model fuel (msgs ++ [retryDirective]) with
      | none => rw [hrec] at h; exact Option.noConfusion h
      | some p =>
        obtain ⟨m0, n0⟩ := p
        rw [hrec] at h
        cases h
        obtain ⟨ih1, ih2, ih3⟩ := ih _ _ _ hrec
        refine ⟨Nat.le_succ_of_le ih1, ih2, ?_⟩
        rw [ih3]
        have hrep : List.replicate (n0 + 1 - 1) retryDirective =
            retryDirective :: List.replicate (n0 - 1) retryDirective := by
          have : n0 + 1 - 1 = (n0 - 1) + 1 := by omega
          rw [this, List.replicate_succ]
        rw [hrep]
        simp
    · rw [if_neg hr] at h
      cases h
      refine ⟨Nat.le_refl 1, ?_, by simp⟩
      rw [hasRealOutput_eq]
      simp [Bool.not_eq_true] at hr
      simp [hr]

/-- C4: whenever the retry loop of the agent invoker terminates, the state
delta holds exactly one new message, that message passes the acceptance
check (at least one tool call or non-empty text), and it is precisely the
model output on the working copy, so the synthetic retry directives of the
working copy are not part of the delta. For the scripted model that is
empty on its first two invocations and valid on the third, the loop
performs exactly three invocations and the delta is the single valid
message. -/
theorem invoker_single_accepted_message :
    (∀ (model : List Msg → Msg) (fuel : Nat) (msgs : List Msg) (m : Msg) (n : Nat),
      assistantCall model fuel msgs = some (m, n) →
      hasRealOutput m = true ∧
      m = model (msgs ++ List.replicate (n - 1) retryDirective) ∧
      assistantCallDelta model fuel msgs = some [m]) ∧
    assistantCall scriptedModel 10 [initialUserMsg] = some (scriptedValidMsg, 3) ∧
    assistantCallDelta scriptedModel 10 [initialUserMsg] = some [scriptedValidMsg] ∧
    scriptedValidMsg ≠ retryDirective := by
  refine ⟨?_, by decide, by decide, by decide⟩
  intro model fuel msgs m n h
  obtain ⟨-, h2, h3⟩ := assistantCall_sound model fuel msgs m n h
  refine ⟨h2, h3, ?_⟩
  unfold assistantCallDelta
  rw [h]
  rfl

/-- Witness for C4, instantiating the loop soundness at the scripted
model. -/
theorem invoker_single_accepted_message_witness :
    hasRealOutput scriptedValidMsg = true ∧
    scriptedValidMsg =
      scriptedModel ([initialUserMsg] ++ List.replicate (3 - 1) retryDirective) ∧
    assistantCallDelta scriptedModel 10 [initialUserMsg] = some [scriptedValidMsg] :=
  invoker_single_accepted_message.1 scriptedModel 10 [initialUserMsg]
    scriptedValidMsg 3 (by decide)

/-- The always-empty model never satisfies the acceptance check, so the
loop never produces a result for any fuel. -/
theorem assistantCall_alwaysEmpty_none (fuel : Nat) :
    ∀ msgs, assistantCall alwaysEmptyModel fuel msgs = none := by
  induction fuel with
  | zero => intro msgs; rfl
  | succ fuel ih =>
    intro msgs
    unfold assistantCall
    have hr : retryNeeded (alwaysEmptyModel msgs) = true := rfl
    rw [if_pos hr, ih]

/-- If the model produces real output after some number of synthetic
directives, the loop terminates with enough fuel. -/
theorem assistantCall_terminates (model : List Msg → Msg) :
    ∀ (i : Nat) (msgs : List Msg),
      hasRealOutput (model (msgs ++ List.replicate i retryDirective)) = true →
      ∃ fuel r, assistantCall model fuel msgs = some r := by
  intro i
  induction i with
  | zero =>
    intro msgs h
    simp only [List.replicate, List.append_nil] at h
    rw [hasRealOutput_eq] at h
    refine ⟨1, (model msgs, 1), ?_⟩
    unfold assistantCall
    rw [if_neg (by simp at h; simp [h])]
  | succ i ih =>
    intro msgs h
    by_cases hr : retryNeeded (model msgs) = true
    · have h2 : hasRealOutput
          (model ((msgs ++ [retryDirective]) ++ List.replicate i retryDirective)) = true := by
        rw [List.append_assoc]
        simpa [List.replicate_succ] using h
      obtain ⟨fuel, r, hfr⟩ := ih (msgs ++ [retryDirective]) h2
      obtain ⟨m0, n0⟩ := r
      refine ⟨fuel + 1, (m0, n0 + 1), ?_⟩
      unfold assistantCall
      rw [if_pos hr, hfr]
    · refine ⟨1, (model msgs, 1), ?_⟩
      unfold assistantCall
      rw [if_neg hr]

/-- C9: the retry loop has no bound: with the always-empty model it
produces no result for any fuel, and in general it terminates within some
fuel exactly when the model eventually returns real output (a tool call or
non-empty content) on one of the successive working copies. -/
theorem retry_loop_unbounded :
    (∀ (fuel : Nat) (msgs : List Msg),
      assistantCall alwaysEmptyModel fuel msgs = none) ∧
    (∀ (model : List Msg → Msg) (msgs : List Msg),
      (∃ fuel r, assistantCall model fuel msgs = some r) ↔
      (∃ i, hasRealOutput (model (msgs ++ List.replicate i retryDirective)) = true)) := by
  constructor
  · exact fun fuel msgs => assistantCall_alwaysEmpty_none fuel msgs
  · intro model msgs
    constructor
    · rintro ⟨fuel, r, hr⟩
      obtain ⟨m, n⟩ := r
      obtain ⟨-, h2, h3⟩ := assistantCall_sound model fuel msgs m n hr
      exact ⟨n - 1, by rw [← h3]; exact h2⟩
    · rintro ⟨i, hi⟩
      exact assistantCall_terminates model i msgs hi

/-- Witness for C9: the always-empty model makes no progress within fuel
five starting from the empty log. -/
theorem retry_loop_unbounded_witness :
    assistantCall alwaysEmptyModel 5 [] = none :=
  retry_loop_unbounded.1 5 []

/-- C5: when executing the tool calls of the last message raises, the
fallback produces exactly one error ToolMessage per tool call of that
message, in the same order, each correlated to its tool call id, each with
the formatted error content, and the node returns normally instead of
propagating the failure. -/
theorem tool_fallback_messages (runTool : String → String → Except String String)
    (state : GraphState) (m : Msg) (e : String)
    (h : state.messages.getLast? = some m) (_hne : m.tool_calls ≠ [])
    (hfail : runToolCalls runTool m.tool_calls = .error e) :
    tool_node_with_fallback runTool state =
      .ok (m.tool_calls.map fun tc =>
        { content := "Error: " ++ e ++ "\n please fix your mistakes.",
          tool_call_id := tc.id }) ∧
    (m.tool_calls.map fun tc =>
      ({ content := "Error: " ++ e ++ "\n please fix your mistakes.",
         tool_call_id := tc.id } : ToolMsg)).length = m.tool_calls.length := by
  constructor
  · unfold tool_node_with_fallback handle_tool_error
    rw [h]
    simp [hfail]
  · simp

/-- Witness for C5: two tool calls, the second raises; both error messages
are produced, correlated in order. -/
theorem tool_fallback_messages_witness :
    tool_node_with_fallback failingRegistry twoCallState =
      .ok (twoCallMsg.tool_calls.map fun tc =>
        { content := "Error: " ++ "boom" ++ "\n please fix your mistakes.",
          tool_call_id := tc.id }) ∧
    (twoCallMsg.tool_calls.map fun tc =>
      ({ content := "Error: " ++ "boom" ++ "\n please fix your mistakes.",
         tool_call_id := tc.id } : ToolMsg)).length = twoCallMsg.tool_calls.length :=
  tool_fallback_messages failingRegistry twoCallState twoCallMsg "boom"
    rfl (by decide) rfl

/-- Unfolding of applyOps on an empty sequence. -/
theorem applyOps_nil (s : List String) : applyOps s [] = s := rfl

/-- Unfolding of applyOps on one more operation. -/
theorem applyOps_cons (s : List String) (op : StackOp) (rest : List StackOp) :
    applyOps s (op :: rest) = applyOps (update_dialog_stack s (opToArg op)) rest := rfl

/-- Decomposition of a reducer run: starting from a base stack with some
pending pushes on top, the run keeps the shape base part followed by
pending part, where pops consume the most recent pending push first and
reach into the base only when nothing is pending. -/
theorem applyOps_decomp :
    ∀ (ops : List StackOp) (base pend : List String), sentinelFree ops = true →
      applyOps (base ++ pend) ops = baseAfter base pend ops ++ pendingAfter ops pend := by
  intro ops
  induction ops with
  | nil => intro base pend _; rfl
  | cons op rest ih =>
    intro base pend hsf
    cases op with
    | push v =>
      simp only [sentinelFree, Bool.and_eq_true, bne_iff_ne] at hsf
      obtain ⟨hv, hsf2⟩ := hsf
      rw [applyOps_cons]
      have hupd : update_dialog_stack (base ++ pend) (opToArg (.push v)) =
          base ++ (pend ++ [v]) := by
        simp [update_dialog_stack, opToArg, hv]
      rw [hupd, ih base (pend ++ [v]) hsf2]
      rfl
    | pop =>
      have hsf2 : sentinelFree rest = true := by simpa [sentinelFree] using hsf
      rw [applyOps_cons]
      cases pend with
      | nil =>
        have hupd : update_dialog_stack (base ++ []) (opToArg .pop) =
            base.dropLast ++ [] := by
          simp [update_dialog_stack, opToArg]
        rw [hupd, ih base.dropLast [] hsf2]
        rfl
      | cons p ps =>
        have hupd : update_dialog_stack (base ++ p :: ps) (opToArg .pop) =
            base ++ (p :: ps).dropLast := by
          simp [update_dialog_stack, opToArg,
            List.dropLast_append_of_ne_nil (l := p :: ps) base (by simp)]
        rw [hupd, ih base ((p :: ps).dropLast) hsf2]
        rfl

/-- Length accounting of a reducer run without underflow: each push adds
one entry and each pop removes one. -/
theorem applyOps_length :
    ∀ (ops : List StackOp) (s : List String), sentinelFree ops = true →
      noUnderflowAux s.length ops = true →
      (applyOps s ops).length + numPops ops = s.length + numPushes ops := by
  intro ops
  induction ops with
  | nil => intro s _ _; rfl
  | cons op rest ih =>
    intro s hsf hnu
    cases op with
    | push v =>
      simp only [sentinelFree, Bool.and_eq_true, bne_iff_ne] at hsf
      obtain ⟨hv, hsf2⟩ := hsf
      simp only [noUnderflowAux] at hnu
      rw [applyOps_cons]
      have hupd : update_dialog_stack s (opToArg (.push v)) = s ++ [v] := by
        simp [update_dialog_stack, opToArg, hv]
      rw [hupd]
      have hlen : (s ++ [v]).length = s.length + 1 := by simp
      have := ih (s ++ [v]) hsf2 (by rw [hlen]; exact hnu)
      simp only [numPushes, numPops] at this ⊢
      omega
    | pop =>
      have hsf2 : sentinelFree rest = true := by simpa [sentinelFree] using hsf
      simp only [noUnderflowAux, Bool.and_eq_true, bne_iff_ne] at hnu
      obtain ⟨hn0, hnu2⟩ := hnu
      rw [applyOps_cons]
      have hupd : update_dialog_stack s (opToArg .pop) = s.dropLast := by
        simp [update_dialog_stack, opToArg]
      rw [hupd]
      have hlen : s.dropLast.length = s.length - 1 := List.length_dropLast s
      have := ih s.dropLast hsf2 (by rw [hlen]; exact hnu2)
      simp only [numPushes, numPops] at this ⊢
      have hpos : s.length ≠ 0 := hn0
      omega

/-- The base part that survives a reducer run is an initial segment of the
starting base stack: pops only ever shorten it from the tail and pushes
never touch it. -/
theorem baseAfter_take :
    ∀ (ops : List StackOp) (base pend : List String),
      ∃ k, baseAfter base pend ops = base.take k := by
  intro ops
  induction ops with
  | nil => intro base pend; exact ⟨base.length, (List.take_length base).symm⟩
  | cons op rest ih =>
    intro base pend
    cases op with
    | push v => exact ih base (pend ++ [v])
    | pop =>
      cases pend with
      | nil =>
        obtain ⟨k, hk⟩ := ih base.dropLast []
        refine ⟨min k (base.length - 1), ?_⟩
        have hstep : baseAfter base [] (.pop :: rest) = baseAfter base.dropLast [] rest := rfl
        rw [hstep, hk, List.dropLast_eq_take, List.take_take]
      | cons p ps =>
        obtain ⟨k, hk⟩ := ih base ((p :: ps).dropLast)
        exact ⟨k, hk⟩

/-- C6 counterexample: starting from the empty stack, one pop followed by
one push (N = 1 pushes, M = 1 pops, M ≤ N) yields a stack with one entry,
not with N minus M = 0 more entries than the start: the pop on an empty
stack is a silent no-op in the reducer, which breaks the claimed count. -/
theorem reducer_count_underflow_cex :
    numPushes underflowOps = 1 ∧ numPops underflowOps = 1 ∧
    numPops underflowOps ≤ numPushes underflowOps ∧
    applyOps ([] : List String) underflowOps = ["architect_assistant"] ∧
    (applyOps ([] : List String) underflowOps).length ≠
      ([] : List String).length + numPushes underflowOps - numPops underflowOps := by
  decide

/-- C6 amended: for pushes whose values avoid the reserved sentinel string
pop and sequences in which no pop hits an empty intermediate stack, the
resulting stack has exactly N minus M more entries than the start, it is
an initial segment of the start followed by the still-pending pushed
values in push order (tail-only mutation, no reordering), and when some
pushed value is still pending, the top of the result is the most recently
pushed not-yet-popped value. -/
theorem reducer_count_amended (s : List String) (ops : List StackOp)
    (hsf : sentinelFree ops = true) (hnu : noUnderflow s ops = true)
    (_hmn : numPops ops ≤ numPushes ops) :
    (applyOps s ops).length + numPops ops = s.length + numPushes ops ∧
    (∃ k, applyOps s ops = s.take k ++ pendingAfter ops []) ∧
    (pendingAfter ops [] ≠ [] →
      (applyOps s ops).getLast? = (pendingAfter ops []).getLast?) := by
  have hdec := applyOps_decomp ops s [] hsf
  rw [List.append_nil] at hdec
  refine ⟨applyOps_length ops s hsf hnu, ?_, ?_⟩
  · obtain ⟨k, hk⟩ := baseAfter_take ops s []
    exact ⟨k, by rw [hdec, hk]⟩
  · intro hne
    rw [hdec, List.getLast?_append]
    cases hp : (pendingAfter ops []).getLast? with
    | none => exact absurd (List.getLast?_eq_none_iff.mp hp) hne
    | some a => rfl

/-- Witness for the amended C6 at a concrete start and sequence of three
pushes and one pop. -/
theorem reducer_count_amended_witness :
    (applyOps demoStart demoOps).length + numPops demoOps =
      demoStart.length + numPushes demoOps ∧
    (∃ k, applyOps demoStart demoOps = demoStart.take k ++ pendingAfter demoOps []) ∧
    (pendingAfter demoOps [] ≠ [] →
      (applyOps demoStart demoOps).getLast? = (pendingAfter demoOps []).getLast?) :=
  reducer_count_amended demoStart demoOps (by decide) (by decide) (by decide)

end Agentic
